import Mathlib

/-!
Verification of the CodeRabbit MCP server's text-processing core
(`coderabbitai-mcp`): the marker classifier, description synthesizer,
block extractors, line-range derivation, comment correlation, comment
listing, and the tiered resolution flow.

Text is modelled as `List Char` (`Str`), mirroring the JavaScript string
operations used by the source (`includes`, `split`, `trim`, `startsWith`,
`slice`, `join`, `replace`, regex scans).  Regex scans in the source are
lazy and leftmost-first; they are modelled by explicit left-to-right
scanning functions.
-/

/-- Character strings, modelled as lists of characters. -/
abbrev Str := List Char

/-- The backtick character (kept out of character-literal syntax). -/
def btick : Char := List.headD "`".toList ' '

/-- JavaScript `haystack.includes(needle)`: substring containment. -/
def jsIncludes (haystack needle : Str) : Bool :=
  match haystack with
  | [] => needle.isEmpty
  | _ :: rest => needle.isPrefixOf haystack || jsIncludes rest needle

/-- Whitespace test used by JavaScript `trim` (ASCII fragment). -/
def isWs (c : Char) : Bool := c.isWhitespace

/-- JavaScript `s.trim()`: strip leading and trailing whitespace. -/
def jsTrim (s : Str) : Str :=
  ((s.dropWhile isWs).reverse.dropWhile isWs).reverse

/-- JavaScript `s.split('\n')`: split on every newline, keeping empty parts. -/
def splitNl : Str → List Str
  | [] => [[]]
  | c :: rest =>
    if c = '\n' then [] :: splitNl rest
    else
      match splitNl rest with
      | [] => [[c]]
      | s :: ss => (c :: s) :: ss

/-- JavaScript `Array.prototype.join(' ')` on a list of strings. -/
def joinSp : List Str → Str
  | [] => []
  | [s] => s
  | s :: rest => s ++ ' ' :: joinSp rest

/-- Severity levels assigned by the marker classifier
(`src/types.ts` union `"error" | "warning" | "info" | "suggestion"`). -/
inductive Severity where
  | error | warning | info | suggestion
  deriving DecidableEq, Repr

/-- Marker: `⚠️ Potential issue`. -/
def potentialIssueMarker : Str := "⚠️ Potential issue".toList
/-- Marker: `_⚠️ Potential issue_` (italicised variant). -/
def potentialIssueMarkerIt : Str := "_⚠️ Potential issue_".toList
/-- Marker: `🛠️ Refactor suggestion`. -/
def refactorMarker : Str := "🛠️ Refactor suggestion".toList
/-- Marker: `_🛠️ Refactor suggestion_` (italicised variant). -/
def refactorMarkerIt : Str := "_🛠️ Refactor suggestion_".toList
/-- Marker: `🧹 Nitpick`. -/
def nitpickMarker : Str := "🧹 Nitpick".toList
/-- Marker: `🔒 Security`. -/
def securityMarker : Str := "🔒 Security".toList

/-- Condition of the first rule of the marker chain
(`get-comments.ts:24`, `resolve-conversation.ts:258`). -/
def hasPotentialIssue (body : Str) : Bool :=
  jsIncludes body potentialIssueMarker || jsIncludes body potentialIssueMarkerIt

/-- Condition of the second rule of the marker chain
(`get-comments.ts:27`, `resolve-conversation.ts:260`). -/
def hasRefactor (body : Str) : Bool :=
  jsIncludes body refactorMarker || jsIncludes body refactorMarkerIt

/-- Condition of the third rule of the marker chain (`get-comments.ts:30`). -/
def hasNitpick (body : Str) : Bool := jsIncludes body nitpickMarker

/-- Condition of the fourth rule of the marker chain (`get-comments.ts:33`). -/
def hasSecurity (body : Str) : Bool := jsIncludes body securityMarker

/-- Marker classifier of the single-comment parser: the `if`/`else if`
chain of `parseCoderabbitComment` (`src/tools/get-comments.ts:21-36`),
returning the `(severity, category)` pair. -/
def classifyComment (body : Str) : Severity × Str :=
  if hasPotentialIssue body then (.warning, "Potential Issue".toList)
  else if hasRefactor body then (.suggestion, "Refactor Suggestion".toList)
  else if hasNitpick body then (.info, "Nitpick".toList)
  else if hasSecurity body then (.error, "Security".toList)
  else (.info, "General".toList)

/-- Marker classifier of the review-section parser: the `if`/`else if`
chain inside `parseCoderabbitReviewBodyDetailed`
(`src/tools/get-review-details.ts`, resolve-conversation part lines
256-266); it assigns a severity only — the category of a review section
comes from its `<summary>` tag, not from markers. -/
def blockSeverity (block : Str) : Severity :=
  if hasPotentialIssue block then .warning
  else if hasRefactor block then .suggestion
  else if hasNitpick block then .info
  else if hasSecurity block then .error
  else .info

/-- Scan left-to-right for the first position where any pattern of
`pats` (tried in order) matches; consume it and return the remainder.
Models the leftmost-match step of a lazy regex gap. -/
def dropAfterAny (pats : List Str) : Str → Option Str
  | [] => none
  | l@(_ :: rest) =>
    match pats.find? (fun p => p.isPrefixOf l) with
    | some p => some (l.drop p.length)
    | none => dropAfterAny pats rest

/-- Scan for the first occurrence of a single pattern and return the
remainder after it. -/
def dropAfterPat (pat : Str) (l : Str) : Option Str := dropAfterAny [pat] l

/-- Scan for the first occurrence of `pat`; return the text before it and
the remainder after it.  Models a lazy capture group followed by a
literal close delimiter. -/
def takeUntilPat (pat : Str) : Str → Option (Str × Str)
  | [] => none
  | l@(c :: rest) =>
    if pat.isPrefixOf l then some ([], l.drop pat.length)
    else
      match takeUntilPat pat rest with
      | none => none
      | some (a, b) => some (c :: a, b)

/-- One step of a block-extraction regex: consume each pattern of `pres`
in order (each at its first occurrence), then capture lazily up to the
close delimiter `cls`.  Returns the capture and the remainder after the
close delimiter. -/
def matchStep (pres : List Str) (cls : Str) (l : Str) : Option (Str × Str) :=
  match pres with
  | [] => takeUntilPat cls l
  | p :: ps =>
    match dropAfterPat p l with
    | none => none
    | some rest => matchStep ps cls rest

/-- `matchAll` loop for a block-extraction regex: repeat `stepF` from the
remainder of each match, collecting the trimmed captures in scan order.
`fuel` bounds the number of iterations (each step consumes at least one
character, so `length + 1` fuel is always enough). -/
def matchAllLoop (stepF : Str → Option (Str × Str)) : Nat → Str → List Str
  | 0, _ => []
  | fuel + 1, l =>
    match stepF l with
    | none => []
    | some (content, rest) => jsTrim content :: matchAllLoop stepF fuel rest

/-- JavaScript `s.replace(/\*\*/g, '')`: delete every (non-overlapping,
leftmost-first) occurrence of `**`. -/
def stripBold : Str → Str
  | [] => []
  | '*' :: '*' :: rest => stripBold rest
  | c :: rest => c :: stripBold rest

/-- Fueled worker for `stripTicks`. -/
def stripTicksFuel : Nat → Str → Str
  | 0, l => l
  | _ + 1, [] => []
  | fuel + 1, c :: rest =>
    if c = btick then
      let inner := rest.takeWhile (fun d => d ≠ btick)
      match rest.dropWhile (fun d => d ≠ btick), inner with
      | _ :: tail, _ :: _ => inner ++ stripTicksFuel fuel tail
      | _, _ => c :: stripTicksFuel fuel rest
    else c :: stripTicksFuel fuel rest

/-- JavaScript `` s.replace(/`([^`]+)`/g, '$1') ``: drop paired backticks,
keeping the (nonempty) enclosed text. -/
def stripTicks (l : Str) : Str := stripTicksFuel l.length l

/-- Index of the first occurrence of `pat` (used only to state document
positions in theorems). -/
def idxOfPat (pat : Str) : Str → Option Nat
  | [] => none
  | l@(_ :: rest) =>
    if pat.isPrefixOf l then some 0
    else (idxOfPat pat rest).map (· + 1)

/-- Introductory phrase of an AI-prompt block: `🤖 Prompt for AI Agents`. -/
def aiPre : Str := "🤖 Prompt for AI Agents".toList

/-- Plain fence opener followed by a newline. -/
def fenceOpen : Str := ("```".push '\n').toList

/-- Fence closer preceded by a newline. -/
def fenceClose : Str := ("\n" ++ "```").toList

/-- Introductory phrase of a committable suggestion: `📝 Committable suggestion`. -/
def commPre : Str := "📝 Committable suggestion".toList

/-- `suggestion`-tagged fence opener. -/
def suggOpen : Str := ("```suggestion".push '\n').toList

/-- `diff`-tagged fence opener. -/
def diffOpen : Str := ("```diff".push '\n').toList

/-- AI-prompt extraction: first match of
`🤖 Prompt for AI Agents[\s\S]*?<fence>\n([\s\S]*?)\n<fence>`, capture
trimmed (`get-comments.ts:39-40` and the analogous lines of the other
parsers). -/
def aiPromptOf (body : Str) : Option Str :=
  (matchStep [aiPre, fenceOpen] fenceClose body).map (fun p => jsTrim p.1)

/-- Committable-suggestion extraction: first match of
`📝 Committable suggestion[\s\S]*?<fence>suggestion\n([\s\S]*?)\n<fence>`,
capture trimmed (`get-comments.ts:43-44`). -/
def committableOf (body : Str) : Option Str :=
  (matchStep [commPre, suggOpen] fenceClose body).map (fun p => jsTrim p.1)

/-- Line filter of the single-comment description synthesizer
(`src/tools/get-comments.ts:47-55`). -/
def singleKeep (line : Str) : Bool :=
  !(jsTrim line).isEmpty &&
  !(jsIncludes line "_⚠️".toList) &&
  !(jsIncludes line "_🛠️".toList) &&
  !(jsIncludes line "🤖 Prompt".toList) &&
  !(jsIncludes line "📝 Committable".toList) &&
  !("<".toList.isPrefixOf (jsTrim line)) &&
  !("```".toList.isPrefixOf (jsTrim line))

/-- Surviving lines of the single-comment description synthesizer. -/
def singleKeepLines (body : Str) : List Str := (splitNl body).filter singleKeep

/-- Single-comment description synthesis
(`src/tools/get-comments.ts:57`): join the first 3 surviving lines with a
space, trim, and fall back to the literal `CodeRabbit suggestion` when
the result is empty.  No markup stripping occurs in this context. -/
def commentDescription (body : Str) : Str :=
  let d := jsTrim (joinSp ((singleKeepLines body).take 3))
  if d.isEmpty then "CodeRabbit suggestion".toList else d

/-- Line filter of the review-section description synthesizer
(resolve-conversation part, lines 285-295 of
`src/tools/get-review-details.ts`). -/
def reviewKeep (line : Str) : Bool :=
  !(jsTrim line).isEmpty &&
  !(jsIncludes line "⚠️".toList) &&
  !(jsIncludes line "🛠️".toList) &&
  !(jsIncludes line "🤖 Prompt".toList) &&
  !(jsIncludes line "📝 Committable".toList) &&
  !("<".toList.isPrefixOf (jsTrim line)) &&
  !("```".toList.isPrefixOf (jsTrim line)) &&
  !("---".toList.isPrefixOf (jsTrim line)) &&
  !(jsTrim line == "suggestion".toList)

/-- Surviving lines of the review-section description synthesizer. -/
def reviewKeepLines (block : Str) : List Str := (splitNl block).filter reviewKeep

/-- Review-section description synthesis
(`get-review-details.ts` lines 297-298): join the first 2 surviving
lines with a space, trim, then strip `**` and paired backticks. -/
def reviewDescription (block : Str) : Str :=
  stripTicks (stripBold (jsTrim (joinSp ((reviewKeepLines block).take 2))))

/-- File extensions recognised by the inline file-path pattern
(`get-review-details.ts` line 277). -/
def fileExts : List Str :=
  ["js", "ts", "tsx", "jsx", "py", "java", "cpp", "c", "h",
   "go", "rs", "rb", "php", "cs", "kt", "swift"].map String.toList

/-- A backtick-delimited token matches `[^`]+\.(ext)` for a known
extension: it ends in `.ext` and has a nonempty stem. -/
def validFileToken (content : Str) : Bool :=
  fileExts.any (fun ext => ('.' :: ext).isSuffixOf content && ext.length + 1 < content.length)

/-- Fueled scanner for the inline file-path pattern: try each backtick as
an opening delimiter in document order; the first backtick span that is a
valid file token wins. -/
def filePathScan : Nat → Str → Option Str
  | 0, _ => none
  | _ + 1, [] => none
  | fuel + 1, c :: rest =>
    if c = btick then
      match rest.dropWhile (fun d => d ≠ btick) with
      | [] => none
      | closing =>
        if validFileToken (rest.takeWhile (fun d => d ≠ btick)) then
          some (rest.takeWhile (fun d => d ≠ btick))
        else filePathScan fuel closing
    else filePathScan fuel rest

/-- Inline file-path extraction: first match of
`` `([^`]+\.(js|ts|...))` `` (`get-review-details.ts` lines 277-278). -/
def extractFilePath (block : Str) : Option Str := filePathScan (block.length + 1) block

/-- Consume `pat` caselessly from the front of `l`. -/
def caselessConsume : Str → Str → Option Str
  | [], l => some l
  | _, [] => none
  | p :: ps, c :: cs => if c.toLower = p.toLower then caselessConsume ps cs else none

/-- Digits part of the inline line-range pattern: a space, then `\d+`,
then optionally `-\d+` (the optional part is dropped when the hyphen is
not followed by a digit). -/
def digitsCapture : Str → Option Str
  | c :: r2 =>
    if c = ' ' then
      let ds := r2.takeWhile Char.isDigit
      if ds.isEmpty then none
      else
        match r2.drop ds.length with
        | '-' :: r3 =>
          let ds2 := r3.takeWhile Char.isDigit
          if ds2.isEmpty then some ds else some (ds ++ '-' :: ds2)
        | _ => some ds
    else none
  | [] => none

/-- Attempt of the inline line-range pattern `lines? (\d+(?:-\d+)?)` at
one position (case-insensitive, greedy optional `s`). -/
def lineRangeAt (l : Str) : Option Str :=
  match caselessConsume "line".toList l with
  | none => none
  | some r1 =>
    match (match r1 with
           | c :: cs => if c.toLower = 's' then digitsCapture cs else none
           | [] => none) with
    | some cap => some cap
    | none => digitsCapture r1

/-- Inline line-range extraction: first match of `/lines? (\d+(?:-\d+)?)/i`
(`get-review-details.ts` lines 281-282). -/
def extractLineRange : Str → Option Str
  | [] => none
  | l@(_ :: rest) =>
    match lineRangeAt l with
    | some cap => some cap
    | none => extractLineRange rest

/-- Raw GitHub review comment (the fields of `GitHubComment` in
`src/types.ts` that the parsing logic consumes). -/
structure GitHubComment where
  id : Nat
  body : Str
  path : Str
  user_login : Str
  side : Str
  html_url : Str
  diff_hunk : Str
  created_at : Str
  updated_at : Str
  original_start_line : Option Nat
  original_line : Option Nat
  pull_request_review_id : Option Nat
  deriving DecidableEq, Repr

/-- Parsed CodeRabbit comment (`CodeRabbitComment` in `src/types.ts`). -/
structure CodeRabbitComment where
  id : Nat
  body : Str
  path : Str
  line_range : Nat × Nat
  side : Str
  severity : Severity
  category : Str
  description : Str
  ai_prompt : Option Str
  committable_suggestion : Option Str
  html_url : Str
  diff_hunk : Str
  created_at : Str
  updated_at : Str
  is_resolved : Bool
  deriving DecidableEq, Repr

/-- JavaScript truthiness of an optional number (`undefined` and `0` are
falsy). -/
def jsTruthyNum (o : Option Nat) : Bool := o.getD 0 != 0

/-- JavaScript truthiness of an optional string (`undefined` and the
empty string are falsy). -/
def jsTruthyStr : Option Str → Bool
  | none => false
  | some s => !s.isEmpty

/-- Line-range derivation of the comment parsers
(`src/tools/get-comments.ts:60-71`, and identically
`get-comment-details.ts` lines 185-196): use both anchors verbatim when
both are truthy, the end anchor alone when only it is truthy, and the
`(1, 1)` default otherwise. -/
def deriveLineRange (original_start_line original_line : Option Nat) : Nat × Nat :=
  if jsTruthyNum original_start_line && jsTruthyNum original_line then
    (original_start_line.getD 0, original_line.getD 0)
  else if jsTruthyNum original_line then
    (original_line.getD 0, original_line.getD 0)
  else (1, 1)

/-- Resolution-acknowledgement heuristic (`get-comments.ts:74`). -/
def isResolvedOf (body : Str) : Bool :=
  jsIncludes body "✅ Addressed".toList || jsIncludes body "✅ Fixed".toList ||
  jsIncludes body "✅ Resolved".toList

/-- The bot identity every tool filters on. -/
def botLogin : Str := "coderabbitai[bot]".toList

/-- `parseCoderabbitComment` (`src/tools/get-comments.ts:17-93`): build one
structured comment record from a raw review comment. -/
def parseCoderabbitComment (c : GitHubComment) : CodeRabbitComment :=
  let sc := classifyComment c.body
  { id := c.id
    body := c.body
    path := c.path
    line_range := deriveLineRange c.original_start_line c.original_line
    side := c.side
    severity := sc.1
    category := sc.2
    description := commentDescription c.body
    ai_prompt := aiPromptOf c.body
    committable_suggestion := committableOf c.body
    html_url := c.html_url
    diff_hunk := c.diff_hunk
    created_at := c.created_at
    updated_at := c.updated_at
    is_resolved := isResolvedOf c.body }

/-- Code-point lexicographic strict order on strings (model of
`localeCompare` returning a negative value; locale collation is not
modelled). -/
def strLt : Str → Str → Bool
  | [], [] => false
  | [], _ :: _ => true
  | _ :: _, [] => false
  | a :: as, b :: bs => if a < b then true else if b < a then false else strLt as bs

/-- Sort comparator of `getReviewComments` (`get-comments.ts:126-131`):
by file path, then by line-range start. -/
def commentLe (a b : CodeRabbitComment) : Bool :=
  if a.path == b.path then a.line_range.1 ≤ b.line_range.1 else strLt a.path b.path

/-- `getReviewComments` (`src/tools/get-comments.ts:98-138`), modelled as a
pure function of the comment list returned by the remote port: filter for
the bot author, optionally restrict to one review id, parse each comment,
and sort.  Non-bot comments are dropped, never an error. -/
def getReviewComments (allComments : List GitHubComment) (reviewId : Option Nat) :
    List CodeRabbitComment :=
  let coderabbitComments := allComments.filter (fun c => c.user_login == botLogin)
  let coderabbitComments2 :=
    if jsTruthyNum reviewId then
      coderabbitComments.filter (fun c => c.pull_request_review_id == reviewId)
    else coderabbitComments
  List.insertionSort (fun a b => commentLe a b = true)
    (coderabbitComments2.map parseCoderabbitComment)

/-- One entry of the detailed review parser's `comments` array
(`get-review-details.ts` lines 225-233). -/
structure DetailedEntry where
  category : Str
  severity : Severity
  description : Str
  ai_prompt : Option Str
  committable_suggestion : Option Str
  file_path : Option Str
  line_range : Option Str
  deriving DecidableEq, Repr

/-- Per-sub-block step of the detailed review parser's section walk
(`get-review-details.ts` lines 253-311): classify one `</blockquote>`
fragment of a `<details>` section whose `<summary>` category is
`category`; returns the entry pushed onto `comments`, or `none` when the
fragment is skipped. -/
def parseDetailedBlock (category block : Str) : Option DetailedEntry :=
  if (jsTrim block).isEmpty then none
  else
    let aiPrompt := aiPromptOf block
    let committable := committableOf block
    let filePath := extractFilePath block
    let description := reviewDescription block
    if !description.isEmpty && (jsTruthyStr aiPrompt || jsTruthyStr committable ||
        jsTruthyStr filePath) then
      some { category := category
             severity := blockSeverity block
             description := if description.isEmpty then "CodeRabbit suggestion".toList
                            else description
             ai_prompt := aiPrompt
             committable_suggestion := committable
             file_path := filePath
             line_range := extractLineRange block }
    else none

/-- Retention condition of the summary review parser
(`get-reviews.ts`, part_002 line 87): an entry is pushed iff the AI
prompt or the committable suggestion is truthy, or the description
differs from the category label. -/
def retainedSummary (category description : Str)
    (aiPrompt committableSuggestion : Option Str) : Bool :=
  jsTruthyStr aiPrompt || jsTruthyStr committableSuggestion ||
  decide (description ≠ category)

/-- All committable-suggestion captures of a body, in scan order
(`get-comment-details.ts`, part_003 lines 19-22). -/
def committableAll (body : Str) : List Str :=
  matchAllLoop (matchStep [commPre, suggOpen] fenceClose) (body.length + 1) body

/-- All diff-fence captures of a body, in scan order (part_003 lines
25-28). -/
def diffAll (body : Str) : List Str :=
  matchAllLoop (matchStep [diffOpen] fenceClose) (body.length + 1) body

/-- Language-tagged fence openers of the code-block pattern (part_003
line 31), in the alternation order of the pattern. -/
def langOpens : List Str :=
  (["javascript", "typescript", "python", "java", "go", "rust", "cpp", "c"].map
    (fun s => ("```" ++ s).push '\n')).map String.toList

/-- One step of the language-tagged code-block scan. -/
def codeBlockStep (l : Str) : Option (Str × Str) :=
  match dropAfterAny langOpens l with
  | none => none
  | some rest => takeUntilPat fenceClose rest

/-- All language-tagged fence captures of a body, in scan order
(part_003 lines 31-34). -/
def codeAll (body : Str) : List Str :=
  matchAllLoop codeBlockStep (body.length + 1) body

/-- `extractFixExamples` (`get-comment-details.ts`, part_003 lines
15-37): push all committable-suggestion captures, then all diff-fence
captures, then all language-tagged fence captures onto `examples`. -/
def extractFixExamples (body : Str) : List Str :=
  let examples : List Str := []
  let examples := examples ++ committableAll body
  let examples := examples ++ diffAll body
  let examples := examples ++ codeAll body
  examples

/-- The fix-example list grouped by block kind: committable-suggestion
captures first, then diff captures, then language-tagged captures, each
group in document order (each scan walks the body left to right). -/
def fixExamplesGrouped (body : Str) : List Str :=
  committableAll body ++ diffAll body ++ codeAll body

/-- Relatedness test of the correlation engine (`get-comment-details.ts`,
part_003 lines 69-81): a different comment on the same file whose anchor
(missing anchors count as line 0) is within 10 lines of the target's. -/
def relatedPred (current c : GitHubComment) : Bool :=
  c.id != current.id && c.path == current.path &&
  decide ((((current.original_line.getD 0 : Int)) -
           ((c.original_line.getD 0 : Int))).natAbs ≤ 10)

/-- `findRelatedComments` (`get-comment-details.ts`, part_003 lines
63-85): identifiers of the related comments, in input order. -/
def findRelatedComments (current : GitHubComment)
    (allComments : List GitHubComment) : List Nat :=
  (allComments.filter (relatedPred current)).map (fun c => c.id)

/-- Resolution kind of a `resolve_comment` request
(`resolve-comment.ts:8`). -/
inductive ResolutionKind where
  | addressed | wont_fix | not_applicable
  deriving DecidableEq, Repr

/-- Pull-request summary fields used by the comment search
(`github-client.ts`). -/
structure GitHubPullRequest where
  id : Nat
  number : Nat
  state : Str
  deriving DecidableEq, Repr

/-- Remote write actions the resolution flow can invoke.  Payloads (the
posted reply text, the reaction emoji) are not modelled. -/
inductive WriteAction where
  | reply | reaction | resolveApi | unresolveApi
  deriving DecidableEq, Repr

/-- Remote repository port as `resolveComment` sees it: the outcome of
listing recent pull requests (with the per-PR comment fetches), of the
reply post, and of the reaction post.  The reaction outcome is part of
the port even though `resolveComment` never invokes it. -/
structure ResolvePort where
  listPRs : Except Str (List (GitHubPullRequest × Except Str (List GitHubComment)))
  replyResult : Except Str Unit
  reactionResult : Except Str Unit

/-- `ResolveCommentResult` (`resolve-comment.ts:14-19`). -/
structure ResolveCommentResult where
  success : Bool
  message : Str
  comment_id : Nat
  resolution_method : Str
  deriving DecidableEq, Repr

/-- `findCommentInRecentPRs` (`github-client.ts`, part_004 lines
233-268): scan the listed pull requests in order and return the first
comment with the requested id; a pull request whose comment fetch fails
is skipped. -/
def findCommentInRecentPRs
    (prs : List (GitHubPullRequest × Except Str (List GitHubComment)))
    (commentId : Nat) : Option (GitHubComment × GitHubPullRequest) :=
  match prs with
  | [] => none
  | (pr, res) :: rest =>
    match res with
    | .error _ => findCommentInRecentPRs rest commentId
    | .ok comments =>
      match comments.find? (fun c => c.id == commentId) with
      | some c => some (c, pr)
      | none => findCommentInRecentPRs rest commentId

/-- Decimal rendering of a number, as interpolated into messages. -/
def natStr (n : Nat) : Str := (Nat.repr n).toList

/-- `resolveComment` (`src/tools/resolve-comment.ts:30-124`), paired with
the list of remote write actions it invoked.  Locate the comment, check
the bot identity, then attempt the reply; when the reply fails the
resolution is only "tracked" — no reaction or other write is attempted
(the commented-out strategy 2 of lines 96-107).  The reply payload
(resolution emoji, message and note) is posted as the reply body and not
otherwise used, so `resolution` and `note` do not influence the result. -/
def resolveComment (port : ResolvePort) (commentId : Nat)
    (_resolution : ResolutionKind) (_note : Option Str) :
    ResolveCommentResult × List WriteAction :=
  match port.listPRs with
  | .error e =>
    ({ success := false
       message := "Failed to resolve comment: Failed to search for comment ".toList ++
         natStr commentId ++ ": ".toList ++ e
       comment_id := commentId
       resolution_method := "error".toList }, [])
  | .ok prs =>
    match findCommentInRecentPRs prs commentId with
    | none =>
      ({ success := false
         message := "Comment with ID ".toList ++ natStr commentId ++
           " not found in recent pull requests".toList
         comment_id := commentId
         resolution_method := "none".toList }, [])
    | some (c, pr) =>
      if c.user_login ≠ botLogin then
        ({ success := false
           message := "Comment ".toList ++ natStr commentId ++
             " is not from CodeRabbit AI".toList
           comment_id := commentId
           resolution_method := "none".toList }, [])
      else
        match port.replyResult with
        | .ok _ =>
          ({ success := true
             message := "Added resolution comment to PR #".toList ++ natStr pr.number
             comment_id := commentId
             resolution_method := "reply".toList }, [.reply])
        | .error e =>
          ({ success := true
             message := "Comment resolution tracked (reply failed: ".toList ++ e ++
               ")".toList
             comment_id := commentId
             resolution_method := "tracked".toList }, [.reply])

/-- The claim's description synthesizer for the single-comment context,
as stated (cap of 2 lines, markup stripped, fallback to the category
label then to the literal); stated only to be refuted. -/
def claimSingleDescription (category : Option Str) (body : Str) : Str :=
  let d := stripTicks (stripBold (jsTrim (joinSp ((singleKeepLines body).take 2))))
  if d.isEmpty then category.getD "CodeRabbit suggestion".toList else d

/-- The claim's retention condition for parsed review entries, as stated
(one of the three fields present, or description differing from the
category label); stated only to be refuted. -/
def claimRetained (description category : Str)
    (aiPrompt committableSuggestion filePath : Option Str) : Bool :=
  aiPrompt.isSome || committableSuggestion.isSome || filePath.isSome ||
  decide (description ≠ category)

/-- Concrete body carrying both a nitpick marker and a security marker. -/
def nitSecBody : Str := "🧹 Nitpick and 🔒 Security".toList

/-- C1 counterexample: a body containing both the security marker and the
nitpick marker classifies as `info` (category `Nitpick`), not `error` —
the nitpick rule precedes the security rule in the classifier chain. -/
theorem claim1_counterexample :
    jsIncludes nitSecBody nitpickMarker = true ∧
    jsIncludes nitSecBody securityMarker = true ∧
    (classifyComment nitSecBody).1 = Severity.info ∧
    (classifyComment nitSecBody).1 ≠ Severity.error ∧
    blockSeverity nitSecBody = Severity.info := by
  refine ⟨by decide, by decide, by decide, by decide, by decide⟩

/-- C1 (amended): both marker classifiers assign by first-matching rule
in the fixed order potential-issue → warning, refactor-suggestion →
suggestion, nitpick → info, security → error, with `(General, info)` as
the no-marker default of the single-comment classifier; since the
nitpick rule precedes the security rule, a body with both markers (and
no higher-priority marker) yields severity `info`, not `error`. -/
theorem claim1_marker_priority (body : Str) :
    (hasPotentialIssue body = true →
      classifyComment body = (.warning, "Potential Issue".toList) ∧
      blockSeverity body = .warning) ∧
    (hasPotentialIssue body = false → hasRefactor body = true →
      classifyComment body = (.suggestion, "Refactor Suggestion".toList) ∧
      blockSeverity body = .suggestion) ∧
    (hasPotentialIssue body = false → hasRefactor body = false →
      hasNitpick body = true →
      classifyComment body = (.info, "Nitpick".toList) ∧
      blockSeverity body = .info) ∧
    (hasPotentialIssue body = false → hasRefactor body = false →
      hasNitpick body = false → hasSecurity body = true →
      classifyComment body = (.error, "Security".toList) ∧
      blockSeverity body = .error) ∧
    (hasPotentialIssue body = false → hasRefactor body = false →
      hasNitpick body = false → hasSecurity body = false →
      classifyComment body = (.info, "General".toList) ∧
      blockSeverity body = .info) := by
  refine ⟨?_, ?_, ?_, ?_, ?_⟩ <;> intros <;> simp_all [classifyComment, blockSeverity]

/-- Witness for C1: the amended theorem applied to the two-marker body. -/
theorem claim1_marker_priority_witness :
    classifyComment nitSecBody = (Severity.info, "Nitpick".toList) ∧
    blockSeverity nitSecBody = Severity.info :=
  (claim1_marker_priority nitSecBody).2.2.1 (by decide) (by decide) (by decide)

/-- C9: a start-line anchor with no end/line anchor is never used — the
derivation falls through to the `(1, 1)` default for every start value. -/
theorem claim9_start_only_default (s : Nat) :
    deriveLineRange (some s) none = (1, 1) := by
  simp [deriveLineRange, jsTruthyNum]

/-- C6: with both anchors present (and positive, as platform line numbers
are), they are used verbatim even when start > end; with only the end
anchor, it is used for both ends; with no end anchor, the range defaults
to `(1, 1)`. -/
theorem claim6_line_range (osl ol : Option Nat)
    (hs : ∀ n, osl = some n → 0 < n) (he : ∀ n, ol = some n → 0 < n) :
    (∀ s e, osl = some s → ol = some e → deriveLineRange osl ol = (s, e)) ∧
    (osl = none → ∀ e, ol = some e → deriveLineRange osl ol = (e, e)) ∧
    (ol = none → deriveLineRange osl ol = (1, 1)) := by
  refine ⟨?_, ?_, ?_⟩
  · intro s e h1 h2
    subst h1; subst h2
    have h1' : s ≠ 0 := Nat.pos_iff_ne_zero.mp (hs s rfl)
    have h2' : e ≠ 0 := Nat.pos_iff_ne_zero.mp (he e rfl)
    simp [deriveLineRange, jsTruthyNum, h1', h2']
  · intro h1 e h2
    subst h1; subst h2
    have h2' : e ≠ 0 := Nat.pos_iff_ne_zero.mp (he e rfl)
    simp [deriveLineRange, jsTruthyNum, h2']
  · intro h2
    subst h2
    simp [deriveLineRange, jsTruthyNum]

/-- Witness for C6: both-anchor pass-through with start > end, end-only
duplication, and the no-anchor default. -/
theorem claim6_line_range_witness :
    deriveLineRange (some 5) (some 3) = (5, 3) ∧
    deriveLineRange none (some 4) = (4, 4) ∧
    deriveLineRange none none = (1, 1) := by
  have hp : ∀ m : Nat, ∀ n, (some m : Option Nat) = some n → m ≠ 0 → 0 < n := by
    intro m n h hm
    injection h with h
    subst h
    exact Nat.pos_of_ne_zero hm
  have hn : ∀ n : Nat, (none : Option Nat) = some n → 0 < n := by
    intro n h
    cases h
  refine ⟨?_, ?_, ?_⟩
  · exact (claim6_line_range (some 5) (some 3)
      (fun n h => hp 5 n h (by decide)) (fun n h => hp 3 n h (by decide))).1 5 3 rfl rfl
  · exact (claim6_line_range none (some 4) hn
      (fun n h => hp 4 n h (by decide))).2.1 rfl 4 rfl
  · exact (claim6_line_range none none hn hn).2.2 rfl

/-- C7: when the comment identifier is found in none of the scanned pull
requests, `resolveComment` fails with method `none` and invokes no remote
write action at all. -/
theorem claim7_not_found (port : ResolvePort) (commentId : Nat)
    (resolution : ResolutionKind) (note : Option Str)
    (prs : List (GitHubPullRequest × Except Str (List GitHubComment)))
    (hprs : port.listPRs = .ok prs)
    (hfind : findCommentInRecentPRs prs commentId = none) :
    (resolveComment port commentId resolution note).1.success = false ∧
    (resolveComment port commentId resolution note).1.resolution_method = "none".toList ∧
    (resolveComment port commentId resolution note).2 = [] := by
  simp [resolveComment, hprs, hfind]

/-- Witness for C7: a port whose scan lists no pull requests. -/
theorem claim7_not_found_witness :
    (resolveComment ⟨.ok [], .ok (), .ok ()⟩ 42 .addressed none).1.success = false ∧
    (resolveComment ⟨.ok [], .ok (), .ok ()⟩ 42 .addressed none).1.resolution_method =
      "none".toList ∧
    (resolveComment ⟨.ok [], .ok (), .ok ()⟩ 42 .addressed none).2 = [] :=
  claim7_not_found ⟨.ok [], .ok (), .ok ()⟩ 42 .addressed none [] rfl rfl

/-- A bot-authored comment fixture. -/
def exBotComment : GitHubComment :=
  { id := 7, body := [], path := "a.ts".toList, user_login := botLogin,
    side := [], html_url := [], diff_hunk := [], created_at := [], updated_at := [],
    original_start_line := none, original_line := some 5,
    pull_request_review_id := some 2 }

/-- A pull-request fixture. -/
def exPR : GitHubPullRequest := ⟨1, 15, "open".toList⟩

/-- A port on which the comment is located, the reply post fails, and the
reaction post would succeed. -/
def exFailReplyPort : ResolvePort :=
  { listPRs := .ok [(exPR, .ok [exBotComment])],
    replyResult := .error "boom".toList,
    reactionResult := .ok () }

/-- C4 counterexample: with the primary reply failing and the reaction
action available and succeeding, `resolveComment` reports method
`tracked`, not `reaction`, and never invokes the reaction action. -/
theorem claim4_counterexample :
    exFailReplyPort.reactionResult = .ok () ∧
    (resolveComment exFailReplyPort 7 .addressed none).1.success = true ∧
    (resolveComment exFailReplyPort 7 .addressed none).1.resolution_method =
      "tracked".toList ∧
    (resolveComment exFailReplyPort 7 .addressed none).1.resolution_method ≠
      "reaction".toList ∧
    WriteAction.reaction ∉ (resolveComment exFailReplyPort 7 .addressed none).2 :=
  ⟨rfl, rfl, rfl, by decide, by decide⟩

/-- C4 (amended): for a located, bot-authored comment whose primary reply
fails, `resolveComment` still succeeds but with method `tracked` — the
second tier is a local tracking note, and no reaction is invoked
regardless of the port's reaction capability. -/
theorem claim4_reply_failure_tracked (port : ResolvePort) (commentId : Nat)
    (resolution : ResolutionKind) (note : Option Str)
    (prs : List (GitHubPullRequest × Except Str (List GitHubComment)))
    (c : GitHubComment) (pr : GitHubPullRequest) (e : Str)
    (hprs : port.listPRs = .ok prs)
    (hfind : findCommentInRecentPRs prs commentId = some (c, pr))
    (hbot : c.user_login = botLogin)
    (hreply : port.replyResult = .error e) :
    (resolveComment port commentId resolution note).1.success = true ∧
    (resolveComment port commentId resolution note).1.resolution_method =
      "tracked".toList ∧
    WriteAction.reaction ∉ (resolveComment port commentId resolution note).2 := by
  simp [resolveComment, hprs, hfind, hbot, hreply]

/-- Witness for C4: the amended theorem applied to the failing-reply
port. -/
theorem claim4_reply_failure_tracked_witness :
    (resolveComment exFailReplyPort 7 .addressed none).1.success = true ∧
    (resolveComment exFailReplyPort 7 .addressed none).1.resolution_method =
      "tracked".toList ∧
    WriteAction.reaction ∉ (resolveComment exFailReplyPort 7 .addressed none).2 :=
  claim4_reply_failure_tracked exFailReplyPort 7 .addressed none
    [(exPR, .ok [exBotComment])] exBotComment exPR "boom".toList rfl rfl rfl rfl

/-- Body with a diff block before a committable-suggestion block. -/
def diffThenSuggBody : Str :=
  ("```diff".push '\n' ++ "A\n" ++ "```" ++ "\n📝 Committable suggestion\n" ++
   "```suggestion".push '\n' ++ "B\n" ++ "```").toList

/-- C5 counterexample: the diff capture `A` occurs earlier in the body
than the suggestion capture `B`, yet the extractor returns `[B, A]` —
suggestion blocks are emitted before diff blocks regardless of document
position, so the output is not in document order. -/
theorem claim5_counterexample :
    extractFixExamples diffThenSuggBody = ["B".toList, "A".toList] ∧
    (idxOfPat "A".toList diffThenSuggBody).isSome = true ∧
    (idxOfPat "B".toList diffThenSuggBody).isSome = true ∧
    (idxOfPat "A".toList diffThenSuggBody).getD 0 <
      (idxOfPat "B".toList diffThenSuggBody).getD 0 ∧
    ["B".toList, "A".toList] ≠ ["A".toList, "B".toList] := by
  refine ⟨by decide, by decide, by decide, by decide, by decide⟩

/-- C5 (amended): the fix-example list is grouped by block kind — all
committable-suggestion captures, then all diff captures, then all
language-tagged captures, each group in document order of its own scan —
rather than globally ordered by document position. -/
theorem claim5_grouped_by_kind (body : Str) :
    extractFixExamples body = fixExamplesGrouped body := by
  simp [extractFixExamples, fixExamplesGrouped]

/-- A string trims to empty exactly when all its characters are
whitespace. -/
theorem jsTrim_eq_nil_iff (s : Str) : jsTrim s = [] ↔ ∀ c ∈ s, isWs c = true := by
  unfold jsTrim
  rw [List.reverse_eq_nil_iff, List.dropWhile_eq_nil_iff]
  constructor
  · intro h c hc
    rcases List.mem_append.mp
        ((List.takeWhile_append_dropWhile (p := isWs) (l := s)) ▸ hc) with h1 | h2
    · exact List.mem_takeWhile_imp h1
    · exact h c (List.mem_reverse.mpr h2)
  · intro h c hc
    exact h c ((List.dropWhile_sublist _).subset (List.mem_reverse.mp hc))

/-- Characters of the first joined string belong to the join. -/
theorem mem_joinSp_head {l : Str} {ls : List Str} {c : Char} (hc : c ∈ l) :
    c ∈ joinSp (l :: ls) := by
  cases ls with
  | nil => simpa [joinSp]
  | cons b bs => exact List.mem_append.mpr (Or.inl hc)

/-- Joining lines that each contain a non-whitespace character yields a
string whose trim is nonempty. -/
theorem jsTrim_joinSp_ne_nil {ls : List Str} (hne : ls ≠ [])
    (h : ∀ l ∈ ls, jsTrim l ≠ []) : jsTrim (joinSp ls) ≠ [] := by
  cases ls with
  | nil => exact absurd rfl hne
  | cons a as =>
    have ha := h a (by simp)
    have hex : ¬ ∀ c ∈ a, isWs c = true :=
      fun hall => ha ((jsTrim_eq_nil_iff a).mpr hall)
    push_neg at hex
    obtain ⟨c, hc, hcw⟩ := hex
    intro hnil
    exact hcw ((jsTrim_eq_nil_iff _).mp hnil c (mem_joinSp_head hc))

/-- Every surviving line of the single-comment description filter has a
nonempty trim. -/
theorem singleKeepLines_trim_ne_nil (body : Str) :
    ∀ l ∈ singleKeepLines body, jsTrim l ≠ [] := by
  intro l hl
  have hp := List.of_mem_filter hl
  simp only [singleKeep, Bool.and_eq_true, Bool.not_eq_true'] at hp
  intro hnil
  have hne := hp.1.1.1.1.1.1
  rw [hnil] at hne
  simp at hne

/-- Body with a bold first line and three substantial lines. -/
def boldThreeLineBody : Str := "**x**\ny\nz".toList

/-- C2 counterexample: on a three-line body, the single-comment
synthesizer keeps all three lines and strips no markup (`**x** y z`),
while the claim's cap-2-and-strip pipeline would produce `x y` — the
caps are swapped and stripping does not happen in the single-comment
context. -/
theorem claim2_counterexample :
    commentDescription boldThreeLineBody = "**x** y z".toList ∧
    claimSingleDescription (some "General".toList) boldThreeLineBody = "x y".toList ∧
    commentDescription boldThreeLineBody ≠
      claimSingleDescription (some "General".toList) boldThreeLineBody := by
  refine ⟨by decide, by decide, by decide⟩

/-- C2 (amended): the single-comment synthesizer joins the first 3
surviving lines and applies no markup stripping, falling back to the
literal `CodeRabbit suggestion` (never to the category label) only when
no line survives; the review-section synthesizer joins the first 2
surviving lines and strips bold markup and paired backticks, and every
retained entry carries exactly that stripped description. -/
theorem claim2_description_synthesis :
    (∀ body : Str, singleKeepLines body ≠ [] →
      commentDescription body = jsTrim (joinSp ((singleKeepLines body).take 3))) ∧
    (∀ body : Str, singleKeepLines body = [] →
      commentDescription body = "CodeRabbit suggestion".toList) ∧
    (∀ category block : Str, ∀ entry : DetailedEntry,
      parseDetailedBlock category block = some entry →
      entry.description =
        stripTicks (stripBold (jsTrim (joinSp ((reviewKeepLines block).take 2))))) := by
  refine ⟨?_, ?_, ?_⟩
  · intro body hne
    have h1 : (singleKeepLines body).take 3 ≠ [] := by
      simp [List.take_eq_nil_iff, hne]
    have h2 : ∀ l ∈ (singleKeepLines body).take 3, jsTrim l ≠ [] :=
      fun l hl => singleKeepLines_trim_ne_nil body l (List.take_subset _ _ hl)
    have h3 := jsTrim_joinSp_ne_nil h1 h2
    unfold commentDescription
    rw [if_neg (by simpa [List.isEmpty_iff] using h3)]
  · intro body h
    unfold commentDescription
    rw [h]
    rfl
  · intro category block entry h
    simp only [parseDetailedBlock] at h
    split at h
    · exact absurd h (by simp)
    · split at h
      · next hcond =>
          simp only [Bool.and_eq_true] at hcond
          have hd : (reviewDescription block).isEmpty = false := by
            simpa using hcond.1
          cases h
          simp only [reviewDescription] at hd ⊢
          simp [hd]
      · exact absurd h (by simp)

/-- The entry retained for the block `` Fix `a.ts` `` under category
`Gen`. -/
def exDetailedEntry : DetailedEntry :=
  { category := "Gen".toList, severity := .info,
    description := "Fix a.ts".toList, ai_prompt := none,
    committable_suggestion := none, file_path := some "a.ts".toList,
    line_range := none }

/-- Witness for C2: the amended theorem applied to a three-line body, to
the empty body, and to a retained review block. -/
theorem claim2_description_synthesis_witness :
    commentDescription boldThreeLineBody =
      jsTrim (joinSp ((singleKeepLines boldThreeLineBody).take 3)) ∧
    commentDescription [] = "CodeRabbit suggestion".toList ∧
    exDetailedEntry.description =
      stripTicks (stripBold (jsTrim (joinSp
        ((reviewKeepLines ("Fix `a.ts`".toList)).take 2)))) :=
  ⟨claim2_description_synthesis.1 boldThreeLineBody (by decide),
   claim2_description_synthesis.2.1 [] (by decide),
   claim2_description_synthesis.2.2 "Gen".toList "Fix `a.ts`".toList
     exDetailedEntry (by decide)⟩

/-- A review sub-block whose synthesized description is substantial but
which carries no AI prompt, no committable suggestion and no file
path. -/
def plainBlock : Str := "Great summary of changes".toList

/-- C3 counterexample: `plainBlock`'s description differs from the bare
category label, so the claim's condition retains it, yet the detailed
parser drops it; conversely the summary parser of `get-reviews.ts` drops
a file-path-only entry that the claim's condition would retain. -/
theorem claim3_counterexample :
    parseDetailedBlock "General".toList plainBlock = none ∧
    reviewDescription plainBlock ≠ "General".toList ∧
    claimRetained (reviewDescription plainBlock) "General".toList
      (aiPromptOf plainBlock) (committableOf plainBlock)
      (extractFilePath plainBlock) = true ∧
    retainedSummary "General".toList "General".toList none none = false ∧
    claimRetained "General".toList "General".toList none none
      (some "a.ts".toList) = true := by
  refine ⟨by decide, by decide, by decide, by decide, by decide⟩

/-- A list's `isEmpty` is `false` exactly when the list is nonempty. -/
theorem isEmpty_false_iff (l : Str) : l.isEmpty = false ↔ l ≠ [] := by
  cases l <;> simp

/-- The retention decision of the detailed parser, as a boolean: the
sub-block survives the `!block.trim()` guard and the push condition. -/
theorem parseDetailedBlock_isSome (category block : Str) :
    (parseDetailedBlock category block).isSome =
      (!(jsTrim block).isEmpty && (!(reviewDescription block).isEmpty &&
        (jsTruthyStr (aiPromptOf block) || jsTruthyStr (committableOf block) ||
         jsTruthyStr (extractFilePath block)))) := by
  by_cases h1 : (jsTrim block).isEmpty
  · simp [parseDetailedBlock, h1]
  · by_cases h2 : (!(reviewDescription block).isEmpty &&
        (jsTruthyStr (aiPromptOf block) || jsTruthyStr (committableOf block) ||
         jsTruthyStr (extractFilePath block))) = true
    · simp [parseDetailedBlock, h1, h2]
    · simp only [Bool.not_eq_true] at h1
      simp [parseDetailedBlock, h1, Bool.eq_false_iff.mpr h2]

/-- C3 (amended): the detailed parser retains a sub-block iff its trim is
nonempty, its synthesized description is nonempty, and at least one of
the AI prompt, committable suggestion, or file path is truthy — the
category label plays no role; the summary parser retains an entry iff
the AI prompt or committable suggestion is truthy or the description
differs from the category label — the file path plays no role. -/
theorem claim3_retention :
    (∀ category block : Str,
      (parseDetailedBlock category block).isSome = true ↔
        (jsTrim block ≠ [] ∧ reviewDescription block ≠ [] ∧
         (jsTruthyStr (aiPromptOf block) = true ∨
          jsTruthyStr (committableOf block) = true ∨
          jsTruthyStr (extractFilePath block) = true))) ∧
    (∀ category description : Str, ∀ aiPrompt committableSuggestion : Option Str,
      retainedSummary category description aiPrompt committableSuggestion = true ↔
        (jsTruthyStr aiPrompt = true ∨ jsTruthyStr committableSuggestion = true ∨
         description ≠ category)) := by
  constructor
  · intro category block
    rw [parseDetailedBlock_isSome]
    simp only [Bool.and_eq_true, Bool.or_eq_true, Bool.not_eq_true',
      isEmpty_false_iff, or_assoc]
  · intro category description aiPrompt committableSuggestion
    simp [retainedSummary, or_assoc]

/-- Witness for C3: a retained detailed block and a retained summary
entry obtained through the amended characterization. -/
theorem claim3_retention_witness :
    (parseDetailedBlock "Gen".toList "Fix `a.ts`".toList).isSome = true ∧
    retainedSummary "General".toList "Helpful".toList none none = true :=
  ⟨(claim3_retention.1 "Gen".toList "Fix `a.ts`".toList).mpr (by decide),
   (claim3_retention.2 "General".toList "Helpful".toList none none).mpr
     (by decide)⟩

/-- Membership in the correlation output is exactly the relatedness test,
provided comment identifiers are unique. -/
theorem mem_findRelatedComments_iff (A B : GitHubComment) (S : List GitHubComment)
    (hB : B ∈ S) (hnd : (S.map (fun c => c.id)).Nodup) :
    B.id ∈ findRelatedComments A S ↔ relatedPred A B = true := by
  unfold findRelatedComments
  constructor
  · intro h
    obtain ⟨c, hcf, hcid⟩ := List.mem_map.mp h
    obtain ⟨hcS, hcp⟩ := List.mem_filter.mp hcf
    have hc : c = B := List.inj_on_of_nodup_map hnd hcS hB hcid
    exact hc ▸ hcp
  · intro h
    exact List.mem_map.mpr ⟨B, List.mem_filter.mpr ⟨hB, h⟩, rfl⟩

/-- The relatedness test is symmetric. -/
theorem relatedPred_symm (A B : GitHubComment) (h : relatedPred A B = true) :
    relatedPred B A = true := by
  simp only [relatedPred, Bool.and_eq_true, bne_iff_ne, beq_iff_eq,
    decide_eq_true_eq] at h ⊢
  obtain ⟨⟨h1, h2⟩, h3⟩ := h
  refine ⟨⟨Ne.symm h1, h2.symm⟩, ?_⟩
  omega

/-- C8: with unique identifiers, another comment's id is returned exactly
when it shares the target's file path and its anchor (missing anchors
count as line 0) is within 10 lines, inclusive, of the target's; and the
relation is symmetric — whenever B's id is in A's related set, A's id is
in B's. -/
theorem claim8_correlation (A B : GitHubComment) (S : List GitHubComment)
    (hA : A ∈ S) (hB : B ∈ S) (hnd : (S.map (fun c => c.id)).Nodup) :
    (B.id ∈ findRelatedComments A S ↔
      (B.id ≠ A.id ∧ B.path = A.path ∧
       (((A.original_line.getD 0 : Int)) -
        ((B.original_line.getD 0 : Int))).natAbs ≤ 10)) ∧
    (B.id ∈ findRelatedComments A S → A.id ∈ findRelatedComments B S) := by
  constructor
  · rw [mem_findRelatedComments_iff A B S hB hnd]
    simp [relatedPred, and_assoc]
  · intro h
    exact (mem_findRelatedComments_iff B A S hA hnd).mpr
      (relatedPred_symm A B ((mem_findRelatedComments_iff A B S hB hnd).mp h))

/-- Comment fixture on the same file, seven lines away from
`exBotComment`. -/
def exNearComment : GitHubComment :=
  { id := 8, body := [], path := "a.ts".toList, user_login := botLogin,
    side := [], html_url := [], diff_hunk := [], created_at := [], updated_at := [],
    original_start_line := none, original_line := some 12,
    pull_request_review_id := some 2 }

/-- Witness for C8: both directions of the correlation on a concrete
pair of nearby comments. -/
theorem claim8_correlation_witness :
    exNearComment.id ∈ findRelatedComments exBotComment [exBotComment, exNearComment] ∧
    exBotComment.id ∈ findRelatedComments exNearComment [exBotComment, exNearComment] := by
  have h := claim8_correlation exBotComment exNearComment
    [exBotComment, exNearComment] (by decide) (by decide) (by decide)
  exact ⟨h.1.mpr (by decide), h.2 (h.1.mpr (by decide))⟩

/-- C10: every comment returned by the listing operation is the parse of
a bot-authored input comment (matching the requested review id when a
nonzero one is supplied), and a list without bot comments yields the
empty result rather than an error. -/
theorem claim10_bot_filter (allComments : List GitHubComment) (reviewId : Option Nat) :
    (∀ x ∈ getReviewComments allComments reviewId,
      ∃ g ∈ allComments, g.user_login = botLogin ∧
        (∀ rid, reviewId = some rid → rid ≠ 0 →
          g.pull_request_review_id = some rid) ∧
        x = parseCoderabbitComment g) ∧
    ((∀ g ∈ allComments, g.user_login ≠ botLogin) →
      getReviewComments allComments reviewId = []) := by
  constructor
  · intro x hx
    simp only [getReviewComments] at hx
    rw [List.mem_insertionSort] at hx
    obtain ⟨g, hg, hgx⟩ := List.mem_map.mp hx
    by_cases hrid : jsTruthyNum reviewId = true
    · rw [if_pos hrid] at hg
      obtain ⟨hg1, hg2⟩ := List.mem_filter.mp hg
      obtain ⟨hgS, hbot⟩ := List.mem_filter.mp hg1
      refine ⟨g, hgS, by simpa using hbot, ?_, hgx.symm⟩
      intro rid hr _
      subst hr
      simpa using hg2
    · rw [if_neg hrid] at hg
      obtain ⟨hgS, hbot⟩ := List.mem_filter.mp hg
      refine ⟨g, hgS, by simpa using hbot, ?_, hgx.symm⟩
      intro rid hr hr0
      subst hr
      exact absurd (by simp [jsTruthyNum, hr0]) hrid
  · intro h
    simp only [getReviewComments]
    have hnil : allComments.filter (fun c => c.user_login == botLogin) = [] := by
      rw [List.filter_eq_nil_iff]
      intro a ha
      simpa using h a ha
    rw [hnil]
    split <;> simp [List.insertionSort]

/-- A comment fixture authored by a human, not the bot. -/
def exNonBotComment : GitHubComment :=
  { id := 9, body := [], path := "a.ts".toList, user_login := "alice".toList,
    side := [], html_url := [], diff_hunk := [], created_at := [], updated_at := [],
    original_start_line := none, original_line := some 1,
    pull_request_review_id := some 2 }

/-- Witness for C10: a pull request whose only comment is human-authored
lists no comments. -/
theorem claim10_bot_filter_witness :
    getReviewComments [exNonBotComment] none = [] :=
  (claim10_bot_filter [exNonBotComment] none).2 (by decide)
